import Mathlib

/-!
# Missile Command clone — shallow embedding and verification

Shallow embedding of `src/msslcmd.py` (a pygame Missile Command clone).

Modelling conventions:
* Python floats are modelled as real numbers (`ℝ`); Python ints as `ℤ`
  (with `ℕ` only for iteration counts and list indices).
* All rendering (`draw`) methods are ignored: they read state and never
  change it.
* `random.*` calls are modelled by an explicit oracle value (`Rand`)
  passed to each tick / spawn, following the injected-random-source
  design: the spawned x, the index of the chosen target, and the chosen
  colors are oracle fields.  Every theorem below is quantified over the
  oracle, so it holds for every realization of the randomness.
* Python mutates lists in place while iterating over a snapshot
  (`for m in lst[:]: ... lst.remove(m)`); the net effect on the owning
  collection is a structural fold/filter, which is what we write.
-/

noncomputable section

open Classical

/-- RGB color triple (Python tuples like `(255, 0, 0)`). -/
abbrev Color := ℤ × ℤ × ℤ

def BLACK : Color := (0, 0, 0)

def WHITE : Color := (255, 255, 255)

def RED : Color := (255, 0, 0)

def GREEN : Color := (0, 255, 0)

def BLUE : Color := (0, 100, 255)

def CYAN : Color := (0, 255, 255)

/-- `SCREEN_WIDTH = 800`. -/
def SCREEN_WIDTH : ℝ := 800

/-- `SCREEN_HEIGHT = 600`. -/
def SCREEN_HEIGHT : ℝ := 600

/-- `ENEMY_MISSILE_SPEED = 1.5`. -/
def ENEMY_MISSILE_SPEED : ℝ := 3 / 2

/-- `PLAYER_MISSILE_SPEED = 5`. -/
def PLAYER_MISSILE_SPEED : ℝ := 5

/-- `EXPLOSION_MAX_RADIUS = 60`. -/
def EXPLOSION_MAX_RADIUS : ℝ := 60

/-- `EXPLOSION_GROWTH_RATE = 2`. -/
def EXPLOSION_GROWTH_RATE : ℝ := 2

/-- `EXPLOSION_DURATION = 45` (frames). -/
def EXPLOSION_DURATION : ℤ := 45

/-- Class `Explosion`: a blast circle that destroys enemy missiles. -/
structure Explosion where
  x : ℝ
  y : ℝ
  radius : ℝ
  max_radius : ℝ
  growing : Bool
  timer : ℤ

/-- `Explosion.__init__(x, y)`. -/
def Explosion.init (x y : ℝ) : Explosion :=
  { x := x
    y := y
    radius := 0
    max_radius := EXPLOSION_MAX_RADIUS
    growing := true
    timer := EXPLOSION_DURATION }

/-- State change performed by `Explosion.update`:
if growing, radius grows by `EXPLOSION_GROWTH_RATE` and growing is cleared
once the new radius has reached `max_radius`; the lifetime timer always
decrements by 1. -/
def Explosion.step (e : Explosion) : Explosion :=
  let e1 :=
    if e.growing then
      { e with
          radius := e.radius + EXPLOSION_GROWTH_RATE
          growing := if e.radius + EXPLOSION_GROWTH_RATE ≥ e.max_radius then false else true }
    else e
  { e1 with timer := e1.timer - 1 }

/-- `Explosion.update()`: mutate, then report whether the explosion is
still active (`timer > 0`). -/
def Explosion.update (e : Explosion) : Explosion × Bool :=
  let e1 := Explosion.step e
  (e1, decide (0 < e1.timer))

/-- `Explosion.collides_with(x, y)`:
`math.sqrt((x - self.x) ** 2 + (y - self.y) ** 2) <= self.radius`. -/
def Explosion.collides_with (e : Explosion) (x y : ℝ) : Prop :=
  Real.sqrt ((x - e.x) ^ 2 + (y - e.y) ^ 2) ≤ e.radius

/-- `Explosion.step` iterated `k` times (the explosion after `k` ticks). -/
def Explosion.stepIter : ℕ → Explosion → Explosion
  | 0, e => e
  | k + 1, e => Explosion.step (Explosion.stepIter k e)

/-- Class `Missile` (base of `PlayerMissile` and `EnemyMissile`). -/
structure Missile where
  x : ℝ
  y : ℝ
  start_x : ℝ
  start_y : ℝ
  target_x : ℝ
  target_y : ℝ
  speed : ℝ
  color : Color
  active : Bool
  velocity_x : ℝ
  velocity_y : ℝ

/-- `Missile.__init__(start_x, start_y, target_x, target_y, speed, color)`:
the velocity is the unit vector toward the target scaled by `speed`
(zero when the start coincides with the target, i.e. `distance = 0`). -/
def mkMissile (start_x start_y target_x target_y speed : ℝ) (color : Color) : Missile :=
  let dx := target_x - start_x
  let dy := target_y - start_y
  let distance := Real.sqrt (dx ^ 2 + dy ^ 2)
  { x := start_x
    y := start_y
    start_x := start_x
    start_y := start_y
    target_x := target_x
    target_y := target_y
    speed := speed
    color := color
    active := true
    velocity_x := if distance > 0 then dx / distance * speed else 0
    velocity_y := if distance > 0 then dy / distance * speed else 0 }

/-- `Missile.update()`: move by the velocity vector. -/
def Missile.update (m : Missile) : Missile :=
  { m with x := m.x + m.velocity_x, y := m.y + m.velocity_y }

/-- `Missile.has_reached_target()`:
`math.sqrt((x - target_x) ** 2 + (y - target_y) ** 2) < speed`. -/
def Missile.has_reached_target (m : Missile) : Prop :=
  Real.sqrt ((m.x - m.target_x) ^ 2 + (m.y - m.target_y) ^ 2) < m.speed

/-- `PlayerMissile.__init__`: speed `PLAYER_MISSILE_SPEED`, color `CYAN`. -/
def mkPlayerMissile (start_x start_y target_x target_y : ℝ) : Missile :=
  mkMissile start_x start_y target_x target_y PLAYER_MISSILE_SPEED CYAN

/-- `EnemyMissile.__init__`: spawns at `(start_x, 0)`, speed
`ENEMY_MISSILE_SPEED`. -/
def mkEnemyMissile (start_x target_x target_y : ℝ) (color : Color) : Missile :=
  mkMissile start_x 0 target_x target_y ENEMY_MISSILE_SPEED color

/-- The `side` tag of a missile base (`'left' | 'center' | 'right'`). -/
inductive Side where
  | left
  | center
  | right
  deriving DecidableEq, Repr

/-- Class `MissileBase` (a launcher). -/
structure MissileBase where
  x : ℝ
  y : ℝ
  side : Side
  active : Bool
  ammo : ℤ

/-- `MissileBase.fire(target_x, target_y)`: if `active and ammo > 0`,
decrement ammo and return a new `PlayerMissile` from the base's position
to the target; otherwise return `None` and leave the base unchanged.
The pair is (returned missile, base after the call). -/
def MissileBase.fire (b : MissileBase) (target_x target_y : ℝ) :
    Option Missile × MissileBase :=
  if b.active = true ∧ 0 < b.ammo then
    (some (mkPlayerMissile b.x b.y target_x target_y), { b with ammo := b.ammo - 1 })
  else
    (none, b)

/-- Class `City` (a target to defend). -/
structure City where
  x : ℝ
  y : ℝ
  active : Bool
  color : Color

/-- Oracle for one tick's worth of `random.*` calls (injected random
source; each theorem is quantified over it). -/
structure Oracle where
  spawnX : ℝ
  choice : ℕ
  enemyColor : Color
  flashColor : Color
  cityColor : ℕ → Color

/-- Class `Game`: the whole mutable game state (rendering fields such as
`screen` and `clock` are omitted: they carry no game logic). -/
structure Game where
  running : Bool
  game_over : Bool
  score : ℤ
  level : ℤ
  enemy_spawn_timer : ℤ
  enemy_spawn_rate : ℤ
  starting_ammo : ℤ
  missiles_spawned_this_level : ℤ
  enemy_missile_color : Color
  flash_timer : ℤ
  flash_color : Color
  bases : List MissileBase
  cities : List City
  player_missiles : List Missile
  enemy_missiles : List Missile
  explosions : List Explosion
  missiles_per_level : ℤ

/-- The three missile bases created by `Game.setup_game` (ammo is then
set to `starting_ammo`; `MissileBase.__init__` would have set 10, which
`setup_game` immediately overwrites). -/
def initBases (starting_ammo : ℤ) : List MissileBase :=
  [ { x := 100, y := SCREEN_HEIGHT - 40, side := Side.left, active := true, ammo := starting_ammo }
  , { x := SCREEN_WIDTH / 2, y := SCREEN_HEIGHT - 40, side := Side.center, active := true, ammo := starting_ammo }
  , { x := SCREEN_WIDTH - 100, y := SCREEN_HEIGHT - 40, side := Side.right, active := true, ammo := starting_ammo } ]

/-- The six cities created by `Game.setup_game` (`City.__init__` sets
`active = True`, `color = BLUE`). -/
def initCities : List City :=
  [ { x := 200, y := SCREEN_HEIGHT - 35, active := true, color := BLUE }
  , { x := 250, y := SCREEN_HEIGHT - 35, active := true, color := BLUE }
  , { x := 300, y := SCREEN_HEIGHT - 35, active := true, color := BLUE }
  , { x := SCREEN_WIDTH - 300, y := SCREEN_HEIGHT - 35, active := true, color := BLUE }
  , { x := SCREEN_WIDTH - 250, y := SCREEN_HEIGHT - 35, active := true, color := BLUE }
  , { x := SCREEN_WIDTH - 200, y := SCREEN_HEIGHT - 35, active := true, color := BLUE } ]

/-- `Game.setup_game()`: fresh bases (refilled to `starting_ammo`),
fresh cities, and empty missile/explosion collections.  All other fields
of the game are untouched. -/
def Game.setup_game (g : Game) : Game :=
  { g with
      bases := initBases g.starting_ammo
      cities := initCities
      player_missiles := []
      enemy_missiles := []
      explosions := [] }

/-- `Game.__init__`: the observable initial state (level-1 start).
`missiles_per_level` is set to the total ammo of the fresh bases. -/
def Game.init : Game :=
  let g : Game :=
    Game.setup_game
      { running := true
        game_over := false
        score := 0
        level := 1
        enemy_spawn_timer := 0
        enemy_spawn_rate := 60
        starting_ammo := 10
        missiles_spawned_this_level := 0
        enemy_missile_color := RED
        flash_timer := 0
        flash_color := WHITE
        bases := []
        cities := []
        player_missiles := []
        enemy_missiles := []
        explosions := []
        missiles_per_level := 0 }
  { g with missiles_per_level := (g.bases.map MissileBase.ammo).sum }

/-- The target list built by `Game.spawn_enemy_missile`: positions of
all active cities, then positions of all active bases. -/
def possibleTargets (g : Game) : List (ℝ × ℝ) :=
  (g.cities.filter (fun c => c.active)).map (fun c => (c.x, c.y)) ++
    (g.bases.filter (fun b => b.active)).map (fun b => (b.x, b.y))

/-- `Game.spawn_enemy_missile()`: if any city or base is active, append
one `EnemyMissile` aimed at the oracle-chosen target and bump
`missiles_spawned_this_level`; otherwise do nothing.  The random start x
and the `random.choice` pick come from the oracle. -/
def Game.spawn_enemy_missile (g : Game) (o : Oracle) : Game :=
  match possibleTargets g with
  | [] => g
  | t :: ts =>
      let tgt := (t :: ts).getD (o.choice % (t :: ts).length) t
      { g with
          enemy_missiles :=
            g.enemy_missiles ++ [mkEnemyMissile o.spawnX tgt.1 tgt.2 g.enemy_missile_color]
          missiles_spawned_this_level := g.missiles_spawned_this_level + 1 }

/-- `Game.randomize_colors()`: a fresh enemy-missile color, and a fresh
color for every active city (active flags and positions untouched). -/
def recolorCities (f : ℕ → Color) : ℕ → List City → List City
  | _, [] => []
  | k, c :: cs =>
      (if c.active then { c with color := f k } else c) :: recolorCities f (k + 1) cs

/-- `Game.randomize_colors()` on the whole game state. -/
def Game.randomize_colors (g : Game) (o : Oracle) : Game :=
  { g with
      enemy_missile_color := o.enemyColor
      cities := recolorCities o.cityColor 0 g.cities }

/-- One pass of the player-missile loop of `Game.update` (iteration over
a snapshot of `player_missiles`): each missile moves; a missile that has
reached its target is replaced by an explosion at the target point; a
missile off screen (`y < 0 or x < 0 or x > SCREEN_WIDTH`) is dropped.
Returns (surviving missiles, explosions appended, in order). -/
def processPlayer : List Missile → List Missile × List Explosion
  | [] => ([], [])
  | m0 :: rest =>
      let m := Missile.update m0
      let r := processPlayer rest
      if m.has_reached_target then
        (r.1, Explosion.init m.target_x m.target_y :: r.2)
      else if m.y < 0 ∨ m.x < 0 ∨ m.x > SCREEN_WIDTH then
        r
      else
        (m :: r.1, r.2)

/-- The city loop of the ground-impact branch: deactivate the first
active city with `abs(city.x - missile.x) < 20` (the loop `break`s),
returning the new city list and the position of the hit city, if any. -/
def hitCity : List City → ℝ → List City × Option (ℝ × ℝ)
  | [], _ => ([], none)
  | c :: cs, mx =>
      if c.active = true ∧ |c.x - mx| < 20 then
        ({ c with active := false } :: cs, some (c.x, c.y))
      else
        let r := hitCity cs mx
        (c :: r.1, r.2)

/-- The base loop of the ground-impact branch (identical shape; note the
source runs it whether or not the city loop matched). -/
def hitBase : List MissileBase → ℝ → List MissileBase × Option (ℝ × ℝ)
  | [], _ => ([], none)
  | b :: bs, mx =>
      if b.active = true ∧ |b.x - mx| < 20 then
        ({ b with active := false } :: bs, some (b.x, b.y))
      else
        let r := hitBase bs mx
        (b :: r.1, r.2)

/-- An optional impact position turned into the explosion it spawns. -/
def optExplosion : Option (ℝ × ℝ) → List Explosion
  | none => []
  | some p => [Explosion.init p.1 p.2]

/-- The state threaded through the enemy-missile loop of `Game.update`:
the retained enemy missiles plus every collection that loop mutates. -/
structure MidState where
  enemy_missiles : List Missile
  cities : List City
  bases : List MissileBase
  explosions : List Explosion
  score : ℤ

/-- One enemy missile's step inside the loop of `Game.update`:
move; if the new position is inside any current explosion the missile is
dropped and the score rises by 25; otherwise if it is at or below the
ground line (`y >= SCREEN_HEIGHT - 50`) it is dropped and the city loop,
then (unconditionally) the base loop, run; otherwise it is retained. -/
def stepEnemyOne (st : MidState) (m0 : Missile) : MidState :=
  let m := Missile.update m0
  if ∃ e ∈ st.explosions, Explosion.collides_with e m.x m.y then
    { st with score := st.score + 25 }
  else if m.y ≥ SCREEN_HEIGHT - 50 then
    let rc := hitCity st.cities m.x
    let rb := hitBase st.bases m.x
    { st with
        cities := rc.1
        bases := rb.1
        explosions := st.explosions ++ optExplosion rc.2 ++ optExplosion rb.2 }
  else
    { st with enemy_missiles := st.enemy_missiles ++ [m] }

/-- The whole enemy-missile loop (left fold over the snapshot). -/
def processEnemy (st : MidState) (ms : List Missile) : MidState :=
  ms.foldl stepEnemyOne st

/-- The explosion loop of `Game.update`: every explosion updates, and
those whose timer has run out are removed. -/
def stepExplosions (es : List Explosion) : List Explosion :=
  (es.map Explosion.step).filter (fun e => decide (0 < e.timer))

/-- The flash-timer decrement at the top of `Game.update`. -/
def Game.tickFlash (g : Game) : Game :=
  { g with flash_timer := if 0 < g.flash_timer then g.flash_timer - 1 else g.flash_timer }

/-- The spawn-throttling block of `Game.update`: the tick counter
increments; when it has reached `enemy_spawn_rate` and the level's quota
is not yet met, one enemy missile spawns and the counter resets. -/
def Game.tickSpawn (g : Game) (o : Oracle) : Game :=
  let g2 := { g with enemy_spawn_timer := g.enemy_spawn_timer + 1 }
  if g2.enemy_spawn_rate ≤ g2.enemy_spawn_timer ∧
      g2.missiles_spawned_this_level < g2.missiles_per_level then
    { (Game.spawn_enemy_missile g2 o) with enemy_spawn_timer := 0 }
  else g2

/-- The player-missile loop of `Game.update`. -/
def Game.tickPlayer (g : Game) : Game :=
  let pr := processPlayer g.player_missiles
  { g with player_missiles := pr.1, explosions := g.explosions ++ pr.2 }

/-- The enemy-missile loop of `Game.update`. -/
def Game.tickEnemy (g : Game) : Game :=
  let st :=
    processEnemy
      { enemy_missiles := []
        cities := g.cities
        bases := g.bases
        explosions := g.explosions
        score := g.score }
      g.enemy_missiles
  { g with
      enemy_missiles := st.enemy_missiles
      cities := st.cities
      bases := st.bases
      explosions := st.explosions
      score := st.score }

/-- The explosion loop of `Game.update`. -/
def Game.tickExplosions (g : Game) : Game :=
  { g with explosions := stepExplosions g.explosions }

/-- The game-over check of `Game.update`: the flag is set the moment
every city is inactive. -/
def Game.tickGameOver (g : Game) : Game :=
  if g.cities.all (fun c => !c.active) then { g with game_over := true } else g

/-- `Game.update` up to (but not including) the level-completion check:
flash timer, spawn throttling, player missiles, enemy missiles,
explosions, and the game-over check, in source order. -/
def Game.preLevel (g : Game) (o : Oracle) : Game :=
  Game.tickGameOver
    (Game.tickExplosions
      (Game.tickEnemy
        (Game.tickPlayer
          (Game.tickSpawn (Game.tickFlash g) o))))

/-- The level-completion condition of `Game.update`:
no live enemy missiles, the level's spawn quota met, and at least one
city still active. -/
def levelCompleteCond (g : Game) : Bool :=
  g.enemy_missiles.isEmpty && decide (g.missiles_per_level ≤ g.missiles_spawned_this_level)
    && g.cities.any (fun c => c.active)

/-- The level-completion block of `Game.update`: 100 points per active
city; every base regenerated and refilled to `starting_ammo` and 50
points per base; next quota = total ammo; flash cue; color
randomization; level + 1; spawn rate lowered by 5, floored at 30; spawn
counters reset. -/
def Game.levelUp (g : Game) (o : Oracle) : Game :=
  let score1 := g.score + 100 * ((g.cities.filter (fun c => c.active)).length : ℤ)
  let bases1 := g.bases.map (fun b => { b with active := true, ammo := g.starting_ammo })
  let score2 := score1 + 50 * (bases1.length : ℤ)
  let g1 := { g with score := score2, bases := bases1 }
  let g2 := { g1 with missiles_per_level := (bases1.map MissileBase.ammo).sum }
  let g3 := { g2 with flash_timer := 20, flash_color := o.flashColor }
  let g4 := Game.randomize_colors g3 o
  { g4 with
      level := g4.level + 1
      enemy_spawn_rate := max 30 (g4.enemy_spawn_rate - 5)
      enemy_spawn_timer := 0
      missiles_spawned_this_level := 0 }

/-- `Game.update()`: early return when `game_over`, else the per-tick
pipeline followed by the level-completion check. -/
def Game.update (g : Game) (o : Oracle) : Game :=
  if g.game_over then g
  else
    let m := Game.preLevel g o
    if levelCompleteCond m then Game.levelUp m o else m

/-- The `MOUSEBUTTONDOWN` branch of `Game.handle_events` (guarded by
`not self.game_over`): fire base `i` at the mouse position, record the
base's new ammo, and append the missile if one was returned. -/
def fireEvent (g : Game) (i : ℕ) (mx my : ℝ) : Game :=
  if g.game_over then g
  else
    match g.bases.get? i with
    | none => g
    | some b =>
        let fr := MissileBase.fire b mx my
        let g1 := { g with bases := g.bases.set i fr.2 }
        match fr.1 with
        | some m => { g1 with player_missiles := g1.player_missiles ++ [m] }
        | none => g1

/-- The `K_SPACE` branch of `Game.handle_events` (guarded by
`self.game_over`): clear the flag, reset score and level, and
`setup_game()`. -/
def restartEvent (g : Game) : Game :=
  if g.game_over then
    Game.setup_game { g with game_over := false, score := 0, level := 1 }
  else g

/-- One observable step of the running program: a tick's `update`, a
fire click, or a restart key press (the quit event only clears
`running`, which no claim mentions). -/
inductive Step : Game → Game → Prop where
  | update (g : Game) (o : Oracle) : Step g (Game.update g o)
  | fire (g : Game) (i : ℕ) (mx my : ℝ) : Step g (fireEvent g i mx my)
  | restart (g : Game) : Step g (restartEvent g)

/-- A game state reachable from the initial state. -/
def Reachable (g : Game) : Prop :=
  Relation.ReflTransGen Step Game.init g

/-- `MissileBase.fire` iterated `n` times at a fixed aim point,
discarding the returned missiles (the launcher after `n` clicks). -/
def fireIter (target_x target_y : ℝ) : ℕ → MissileBase → MissileBase
  | 0, b => b
  | n + 1, b => (MissileBase.fire (fireIter target_x target_y n b) target_x target_y).2

/-- The x-coordinates of the six cities in every reachable state. -/
def stdCityXs : List ℝ := [200, 250, 300, 500, 550, 600]

/-- The x-coordinates of the three bases in every reachable state. -/
def stdBaseXs : List ℝ := [100, 400, 700]

/-- A fixed oracle used to instantiate theorems at concrete inputs. -/
def oracleA : Oracle :=
  { spawnX := 0
    choice := 0
    enemyColor := RED
    flashColor := WHITE
    cityColor := fun _ => WHITE }

/-- Concrete left base with full starting ammo. -/
def baseA : MissileBase :=
  { x := 100, y := 560, side := Side.left, active := true, ammo := 10 }

/-- Concrete game state whose game-over flag is set. -/
def gameOverA : Game :=
  { Game.init with game_over := true }

/-- A threat spawned straight above a base (at `(bx, 0)`, aimed at the
base at `(bx, SCREEN_HEIGHT - 40)`, hence falling vertically at 1.5 per
tick), seen later in its flight at height `yNow`. -/
def flightThreat (bx yNow : ℝ) : Missile :=
  { mkEnemyMissile bx bx (SCREEN_HEIGHT - 40) RED with x := bx, y := yNow }

/-- A reachable game-over state: the endpoint (tick 726) of the level-1
run in which the player never fires.  The RNG spawns threat `k` at tick
`60k` (the spawn timer reaches the rate 60 and resets); threats 1–6
spawn straight above the six cities in the order x = 200, 500, 250,
550, 300, 600, and threats 7–12 straight above the bases (100, 400,
700, 100, 400, 700).  A threat spawned at tick `s` starts at y = 0 and
moves 1.5 per tick (its spawn tick included), so it crosses the ground
line y ≥ 550 during tick `s + 366` at y = 550.5 and kills its target
city: the cities die at ticks 426, 486, 546, 606, 666, 726.  No threat
is ever caught by a blast: a death explosion takes part in collision
checks only through tick `60k + 410`, when the next city-bound threat
is still at y ≤ 526.5 (≥ 38.5 above the city row) and ≥ 250 away in x
(consecutive targets alternate sides of the screen), and base-bound
threats keep x-distance ≥ 100 from every city — all beyond the 60-unit
maximum blast radius.  During tick 726 the sixth city dies and the
game-over flag is set: score 0 (ground impacts score nothing), level 1,
spawn rate still 60, spawn timer 6 (the twelfth spawn reset it at tick
720), 12 of the 30-threat quota spawned, threats 7–12 still in flight
at y = 460.5, 370.5, 280.5, 190.5, 100.5, 10.5, and the sixth city's
death blast one tick old (radius 2, timer 44). -/
def gameOverB : Game :=
  { running := true
    game_over := true
    score := 0
    level := 1
    enemy_spawn_timer := 6
    enemy_spawn_rate := 60
    starting_ammo := 10
    missiles_spawned_this_level := 12
    enemy_missile_color := RED
    flash_timer := 0
    flash_color := WHITE
    bases := initBases 10
    cities := initCities.map (fun c => { c with active := false })
    player_missiles := []
    enemy_missiles :=
      [ flightThreat 100 (921 / 2)
      , flightThreat 400 (741 / 2)
      , flightThreat 700 (561 / 2)
      , flightThreat 100 (381 / 2)
      , flightThreat 400 (201 / 2)
      , flightThreat 700 (21 / 2) ]
    explosions := [Explosion.step (Explosion.init 600 (SCREEN_HEIGHT - 35))]
    missiles_per_level := 30 }

/-- Concrete game state in which every city is inactive. -/
def gameDeadCities : Game :=
  { Game.init with cities := initCities.map (fun c => { c with active := false }) }

/-- Concrete explosion with a 50-unit radius centered at `(100, 100)`. -/
def explosionA : Explosion :=
  { x := 100, y := 100, radius := 50, max_radius := 60, growing := true, timer := 40 }

/-- Concrete enemy missile hovering at `(100, 100)` with zero velocity. -/
def missileA : Missile :=
  { x := 100
    y := 100
    start_x := 100
    start_y := 0
    target_x := 100
    target_y := 565
    speed := ENEMY_MISSILE_SPEED
    color := RED
    active := true
    velocity_x := 0
    velocity_y := 0 }

/-- Concrete mid-loop state holding `explosionA`. -/
def midStateA : MidState :=
  { enemy_missiles := []
    cities := initCities
    bases := initBases 10
    explosions := [explosionA]
    score := 75 }

/-- A point of the plane as an element of Mathlib's Euclidean plane
(`EuclideanSpace ℝ (Fin 2)`), used to state the kinematics claims
against the genuine Euclidean metric. -/
def vec2 (a b : ℝ) : EuclideanSpace ℝ (Fin 2) :=
  (WithLp.equiv 2 (Fin 2 → ℝ)).symm ![a, b]

/-! ## Theorems -/

/-- C10: when the game-over flag is set, the per-tick `Game.update` is
the identity on the whole game state, and a fire click is ignored as
well (the mouse branch of `handle_events` is guarded by
`not self.game_over`); only the restart event escapes `GAME_OVER`. -/
theorem claim_C10_game_over_frame (g : Game) (o : Oracle) (i : ℕ) (mx my : ℝ)
    (h : g.game_over = true) :
    Game.update g o = g ∧ fireEvent g i mx my = g := by
  constructor
  · simp [Game.update, h]
  · simp [fireEvent, h]

theorem claim_C10_witness :
    Game.update gameOverA oracleA = gameOverA ∧ fireEvent gameOverA 0 0 0 = gameOverA :=
  claim_C10_game_over_frame gameOverA oracleA 0 0 0 rfl

/-- C8: an enemy missile whose position after this tick's move lies
inside some current explosion (`collides_with`) is dropped by the
enemy-missile loop, the score rises by exactly 25, and the cities,
bases and explosions are left untouched by that missile. -/
theorem claim_C8_blast_kill (st : MidState) (m0 : Missile)
    (h : ∃ e ∈ st.explosions,
        Explosion.collides_with e (Missile.update m0).x (Missile.update m0).y) :
    stepEnemyOne st m0 = { st with score := st.score + 25 } := by
  simp only [stepEnemyOne]
  rw [if_pos h]

theorem claim_C8_witness :
    stepEnemyOne midStateA missileA = { midStateA with score := midStateA.score + 25 } :=
  claim_C8_blast_kill midStateA missileA
    ⟨explosionA, by simp [midStateA],
      by norm_num [Explosion.collides_with, Missile.update, missileA, explosionA, Real.sqrt_zero]⟩

/-- C2 (counterexample): restart does not reproduce the level-1 spawn
pacing.  In the game-over state `gameOverB` — reached by the concrete
level-1 run traced in its doc comment, with the spawn timer at 6 and
twelve threats spawned — the restarted game keeps both values, while
the level-1 initial state has spawn timer 0 and spawned count 0. -/
theorem claim_C2_counterexample :
    gameOverB.game_over = true ∧
    Game.init.enemy_spawn_timer = 0 ∧
    Game.init.missiles_spawned_this_level = 0 ∧
    (restartEvent gameOverB).enemy_spawn_timer = 6 ∧
    (restartEvent gameOverB).missiles_spawned_this_level = 12 := by
  refine ⟨rfl, rfl, rfl, ?_, ?_⟩ <;>
    simp [restartEvent, Game.setup_game, gameOverB]

/-- C2 (amended): restart from a game-over state resets score to 0,
level to 1, rebuilds all cities (active) and all bases (active, ammo
refilled to `starting_ammo`), empties the projectile and explosion
collections and returns to PLAYING — but the spawn pacing fields
(`enemy_spawn_rate`, `enemy_spawn_timer`, `missiles_spawned_this_level`,
`missiles_per_level`) keep their pre-restart values. -/
theorem claim_C2_restart (g : Game) (h : g.game_over = true) :
    (restartEvent g).game_over = false ∧
    (restartEvent g).score = 0 ∧
    (restartEvent g).level = 1 ∧
    (restartEvent g).cities = initCities ∧
    (∀ c ∈ (restartEvent g).cities, c.active = true) ∧
    (restartEvent g).bases = initBases g.starting_ammo ∧
    (∀ b ∈ (restartEvent g).bases, b.active = true ∧ b.ammo = g.starting_ammo) ∧
    (restartEvent g).player_missiles = [] ∧
    (restartEvent g).enemy_missiles = [] ∧
    (restartEvent g).explosions = [] ∧
    (restartEvent g).enemy_spawn_rate = g.enemy_spawn_rate ∧
    (restartEvent g).enemy_spawn_timer = g.enemy_spawn_timer ∧
    (restartEvent g).missiles_spawned_this_level = g.missiles_spawned_this_level ∧
    (restartEvent g).missiles_per_level = g.missiles_per_level := by
  simp [restartEvent, Game.setup_game, h, initCities, initBases]

theorem claim_C2_witness :
    (restartEvent gameOverB).score = 0 ∧
    (restartEvent gameOverB).level = 1 ∧
    (restartEvent gameOverB).enemy_spawn_rate = gameOverB.enemy_spawn_rate ∧
    (restartEvent gameOverB).missiles_spawned_this_level =
      gameOverB.missiles_spawned_this_level :=
  ⟨(claim_C2_restart gameOverB rfl).2.1, (claim_C2_restart gameOverB rfl).2.2.1,
    (claim_C2_restart gameOverB rfl).2.2.2.2.2.2.2.2.2.2.1,
    (claim_C2_restart gameOverB rfl).2.2.2.2.2.2.2.2.2.2.2.2.1⟩

/-- Helper: `fire` never changes a base's `active`, `x` or `y`. -/
theorem fire_snd_frame (b : MissileBase) (tx ty : ℝ) :
    ((MissileBase.fire b tx ty).2).active = b.active ∧
    ((MissileBase.fire b tx ty).2).x = b.x ∧
    ((MissileBase.fire b tx ty).2).y = b.y := by
  simp only [MissileBase.fire]
  split <;> exact ⟨rfl, rfl, rfl⟩

/-- Helper: `fire` never drives ammo negative. -/
theorem fire_snd_ammo_nonneg (b : MissileBase) (tx ty : ℝ) (h : 0 ≤ b.ammo) :
    0 ≤ ((MissileBase.fire b tx ty).2).ammo := by
  simp only [MissileBase.fire]
  split
  · rename_i hc
    simp only
    omega
  · exact h

/-- Helper: ammo after `N` fires from an active base with enough ammo. -/
theorem fireIter_ammo (tx ty : ℝ) (b : MissileBase) (hA : b.active = true) :
    ∀ N : ℕ, (N : ℤ) ≤ b.ammo →
      (fireIter tx ty N b).ammo = b.ammo - N ∧ (fireIter tx ty N b).active = true := by
  intro N
  induction N with
  | zero => intro _; simp [fireIter, hA]
  | succ N ih =>
      intro h
      have hN : (N : ℤ) ≤ b.ammo := by push_cast at h ⊢; omega
      obtain ⟨h1, h2⟩ := ih hN
      have hpos : 0 < (fireIter tx ty N b).ammo := by
        rw [h1]; push_cast at h; omega
      simp only [fireIter, MissileBase.fire, if_pos (And.intro h2 hpos)]
      constructor
      · simp only [h1]; push_cast; ring
      · exact h2

/-- Helper: ammo is never negative after any number of fires. -/
theorem fireIter_ammo_nonneg (tx ty : ℝ) (b : MissileBase) (h : 0 ≤ b.ammo) :
    ∀ N : ℕ, 0 ≤ (fireIter tx ty N b).ammo := by
  intro N
  induction N with
  | zero => exact h
  | succ N ih => exact fire_snd_ammo_nonneg _ tx ty ih

/-- C6: `fire` returns a fresh interceptor (from the base's position to
the aim point, at `PLAYER_MISSILE_SPEED`) and decrements ammo by 1
exactly when `active ∧ ammo > 0`, and otherwise returns `None` with the
base unchanged; hence after `N ≤ ammo` fires from an active base the
ammo is the start value minus `N`, each of those fires succeeds, and
ammo never goes negative. -/
theorem claim_C6_fire (b : MissileBase) (tx ty : ℝ) :
    (b.active = true ∧ 0 < b.ammo →
        MissileBase.fire b tx ty =
          (some (mkPlayerMissile b.x b.y tx ty), { b with ammo := b.ammo - 1 })) ∧
    (¬(b.active = true ∧ 0 < b.ammo) → MissileBase.fire b tx ty = (none, b)) ∧
    (mkPlayerMissile b.x b.y tx ty).start_x = b.x ∧
    (mkPlayerMissile b.x b.y tx ty).start_y = b.y ∧
    (mkPlayerMissile b.x b.y tx ty).target_x = tx ∧
    (mkPlayerMissile b.x b.y tx ty).target_y = ty ∧
    (mkPlayerMissile b.x b.y tx ty).speed = PLAYER_MISSILE_SPEED ∧
    (∀ N : ℕ, b.active = true → (N : ℤ) ≤ b.ammo →
        (fireIter tx ty N b).ammo = b.ammo - N) ∧
    (∀ N : ℕ, b.active = true → (N : ℤ) < b.ammo →
        ((MissileBase.fire (fireIter tx ty N b) tx ty).1).isSome = true) ∧
    (∀ N : ℕ, 0 ≤ b.ammo → 0 ≤ (fireIter tx ty N b).ammo) := by
  refine ⟨?_, ?_, rfl, rfl, rfl, rfl, rfl, ?_, ?_, ?_⟩
  · intro h; simp only [MissileBase.fire, if_pos h]
  · intro h; simp only [MissileBase.fire, if_neg h]
  · intro N hA hN; exact (fireIter_ammo tx ty b hA N hN).1
  · intro N hA hN
    obtain ⟨h1, h2⟩ := fireIter_ammo tx ty b hA N (le_of_lt hN)
    have hpos : 0 < (fireIter tx ty N b).ammo := by rw [h1]; omega
    simp only [MissileBase.fire, if_pos (And.intro h2 hpos), Option.isSome_some]
  · intro N h; exact fireIter_ammo_nonneg tx ty b h N

theorem claim_C6_witness :
    MissileBase.fire baseA 400 300 =
      (some (mkPlayerMissile baseA.x baseA.y 400 300), { baseA with ammo := baseA.ammo - 1 }) ∧
    (fireIter 400 300 3 baseA).ammo = baseA.ammo - 3 ∧
    0 ≤ (fireIter 400 300 11 baseA).ammo :=
  ⟨(claim_C6_fire baseA 400 300).1 ⟨rfl, by decide⟩,
    (claim_C6_fire baseA 400 300).2.2.2.2.2.2.2.1 3 rfl (by decide),
    (claim_C6_fire baseA 400 300).2.2.2.2.2.2.2.2.2 11 (by decide)⟩

/-- Helper: summing a constant over a list. -/
theorem sum_map_const_int {α : Type} (l : List α) (a : ℤ) :
    (l.map (fun _ => a)).sum = l.length * a := by
  induction l with
  | nil => simp
  | cons x xs ih => simp [ih]; ring

/-- Helper: recoloring cities changes no `active` flag. -/
theorem recolor_any_active (f : ℕ → Color) (cs : List City) :
    ∀ k, (recolorCities f k cs).any (fun c => c.active) = cs.any (fun c => c.active) := by
  induction cs with
  | nil => intro k; rfl
  | cons c cs ih =>
      intro k
      have hact : ((if c.active then { c with color := f k } else c)).active = c.active := by
        split <;> rfl
      simp only [recolorCities, List.any_cons, ih, hact]

/-- Helper: the fields of `Game.levelUp` other than the rewards. -/
theorem levelUp_frame (g : Game) (o : Oracle) :
    (Game.levelUp g o).game_over = g.game_over ∧
    (Game.levelUp g o).enemy_missiles = g.enemy_missiles ∧
    (Game.levelUp g o).level = g.level + 1 ∧
    (Game.levelUp g o).cities.any (fun c => c.active) = g.cities.any (fun c => c.active) := by
  refine ⟨rfl, rfl, rfl, ?_⟩
  exact recolor_any_active o.cityColor g.cities 0

/-- C4: the level-completion block awards 100 points per still-active
city plus 50 per base (each base first reactivated and refilled to
`starting_ammo`), recomputes the next quota as the sum of all bases'
ammo (= base count × starting ammo), increments the level, lowers the
spawn interval by 5 floored at 30, and zeroes the per-level spawn
counters.  With 6 active cities and 3 bases of 10 ammo this is
+600 + 150 points and a quota of 30 (each of the 30 threats destroyed
by a blast having already paid 25 as it died, see C8). -/
theorem claim_C4_level_up (g : Game) (o : Oracle) :
    (Game.levelUp g o).score =
      g.score + 100 * ((g.cities.filter (fun c => c.active)).length : ℤ)
        + 50 * (g.bases.length : ℤ) ∧
    (∀ b ∈ (Game.levelUp g o).bases, b.active = true ∧ b.ammo = g.starting_ammo) ∧
    (Game.levelUp g o).bases.length = g.bases.length ∧
    (Game.levelUp g o).missiles_per_level =
      ((Game.levelUp g o).bases.map MissileBase.ammo).sum ∧
    (Game.levelUp g o).missiles_per_level = (g.bases.length : ℤ) * g.starting_ammo ∧
    (Game.levelUp g o).level = g.level + 1 ∧
    (Game.levelUp g o).enemy_spawn_rate = max 30 (g.enemy_spawn_rate - 5) ∧
    (30 : ℤ) ≤ (Game.levelUp g o).enemy_spawn_rate ∧
    (Game.levelUp g o).enemy_spawn_timer = 0 ∧
    (Game.levelUp g o).missiles_spawned_this_level = 0 ∧
    ((g.cities.filter (fun c => c.active)).length = 6 → g.bases.length = 3 →
      g.starting_ammo = 10 →
      (Game.levelUp g o).score = g.score + 6 * 100 + 3 * 50 ∧
      (Game.levelUp g o).missiles_per_level = 30) := by
  have hsum : ((g.bases.map
      (fun b => { b with active := true, ammo := g.starting_ammo })).map
        MissileBase.ammo).sum = (g.bases.length : ℤ) * g.starting_ammo := by
    rw [List.map_map]
    have hfe : (MissileBase.ammo ∘ fun (b : MissileBase) =>
        ({ b with active := true, ammo := g.starting_ammo } : MissileBase)) =
        fun _ => g.starting_ammo := rfl
    rw [hfe, sum_map_const_int]
  refine ⟨?_, ?_, ?_, ?_, ?_, rfl, rfl, ?_, rfl, rfl, ?_⟩
  · simp [Game.levelUp, Game.randomize_colors]
  · intro b hb
    simp only [Game.levelUp, Game.randomize_colors] at hb
    simp only [List.mem_map] at hb
    obtain ⟨a, _, rfl⟩ := hb
    exact ⟨rfl, rfl⟩
  · simp [Game.levelUp, Game.randomize_colors]
  · simp only [Game.levelUp, Game.randomize_colors]
  · simp only [Game.levelUp, Game.randomize_colors]
    exact hsum
  · exact le_max_left 30 _
  · intro h6 h3 h10
    constructor
    · simp only [Game.levelUp, Game.randomize_colors, h6, List.length_map, h3]
      push_cast
      ring
    · simp only [Game.levelUp, Game.randomize_colors]
      rw [hsum, h3, h10]
      norm_num

theorem claim_C4_witness :
    (Game.levelUp Game.init oracleA).score = Game.init.score + 6 * 100 + 3 * 50 ∧
    (Game.levelUp Game.init oracleA).missiles_per_level = 30 ∧
    (∀ b ∈ (Game.levelUp Game.init oracleA).bases,
      b.active = true ∧ b.ammo = Game.init.starting_ammo) :=
  ⟨((claim_C4_level_up Game.init oracleA).2.2.2.2.2.2.2.2.2.2 rfl rfl rfl).1,
    ((claim_C4_level_up Game.init oracleA).2.2.2.2.2.2.2.2.2.2 rfl rfl rfl).2,
    (claim_C4_level_up Game.init oracleA).2.1⟩

/-- Helper: the city loop finds nothing when every city is inactive. -/
theorem hitCity_inactive (cs : List City) (mx : ℝ) (h : ∀ c ∈ cs, c.active = false) :
    hitCity cs mx = (cs, none) := by
  induction cs with
  | nil => rfl
  | cons c cs ih =>
      have hc : c.active = false := h c (by simp)
      simp only [hitCity]
      rw [if_neg (by simp [hc]), ih (fun x hx => h x (by simp [hx]))]

/-- Helper: one enemy-missile step leaves the city list alone when every
city is already inactive. -/
theorem stepEnemyOne_cities_inactive (st : MidState) (m : Missile)
    (h : ∀ c ∈ st.cities, c.active = false) :
    (stepEnemyOne st m).cities = st.cities := by
  simp only [stepEnemyOne]
  split
  · rfl
  · split
    · simp [hitCity_inactive st.cities _ h]
    · rfl

/-- Helper: the enemy-missile loop leaves the city list alone when every
city is already inactive. -/
theorem processEnemy_cities_inactive (ms : List Missile) :
    ∀ st : MidState, (∀ c ∈ st.cities, c.active = false) →
      (processEnemy st ms).cities = st.cities := by
  induction ms with
  | nil => intro st _; rfl
  | cons m ms ih =>
      intro st h
      have hc := stepEnemyOne_cities_inactive st m h
      simp only [processEnemy, List.foldl_cons]
      have := ih (stepEnemyOne st m) (by rw [hc]; exact h)
      simp only [processEnemy] at this
      rw [this, hc]

/-- Helper: `tickSpawn` touches only the spawn bookkeeping and the
enemy-missile list. -/
theorem tickSpawn_frame (g : Game) (o : Oracle) :
    (Game.tickSpawn g o).cities = g.cities ∧
    (Game.tickSpawn g o).bases = g.bases ∧
    (Game.tickSpawn g o).game_over = g.game_over ∧
    (Game.tickSpawn g o).level = g.level ∧
    (Game.tickSpawn g o).player_missiles = g.player_missiles ∧
    (Game.tickSpawn g o).explosions = g.explosions := by
  simp only [Game.tickSpawn]
  split
  · simp only [Game.spawn_enemy_missile]
    split <;> exact ⟨rfl, rfl, rfl, rfl, rfl, rfl⟩
  · exact ⟨rfl, rfl, rfl, rfl, rfl, rfl⟩

/-- C5: on any tick of a PLAYING state in which every city is inactive,
`Game.update` ends with the game-over flag set — whatever enemy
missiles, bases or wave bookkeeping the state holds, and whatever the
randomness does. -/
theorem claim_C5_all_cities_dead (g : Game) (o : Oracle) (hg : g.game_over = false)
    (h : ∀ c ∈ g.cities, c.active = false) :
    (Game.update g o).game_over = true := by
  set G3 := Game.tickPlayer (Game.tickSpawn (Game.tickFlash g) o) with hG3
  have hc3 : G3.cities = g.cities := by
    rw [hG3]
    show (Game.tickSpawn (Game.tickFlash g) o).cities = g.cities
    exact (tickSpawn_frame (Game.tickFlash g) o).1
  have hc4 : (Game.tickEnemy G3).cities = g.cities := by
    show (processEnemy
      { enemy_missiles := [], cities := G3.cities, bases := G3.bases,
        explosions := G3.explosions, score := G3.score } G3.enemy_missiles).cities = g.cities
    rw [processEnemy_cities_inactive _ _ (by simpa [hc3] using h)]
    exact hc3
  have hm : (Game.preLevel g o).game_over = true := by
    show (Game.tickGameOver (Game.tickExplosions (Game.tickEnemy G3))).game_over = true
    have hc5 : (Game.tickExplosions (Game.tickEnemy G3)).cities = g.cities := hc4
    simp only [Game.tickGameOver, hc5]
    rw [if_pos]
    simp only [List.all_eq_true]
    intro c hc
    simp [h c hc]
  simp only [Game.update, hg]
  norm_num
  split
  · rw [(levelUp_frame (Game.preLevel g o) o).1]
    exact hm
  · exact hm

theorem claim_C5_witness :
    (Game.update gameDeadCities oracleA).game_over = true :=
  claim_C5_all_cities_dead gameDeadCities oracleA rfl
    (by
      intro c hc
      simp only [gameDeadCities, initCities, List.map_cons, List.map_nil,
        List.mem_cons, List.not_mem_nil, or_false] at hc
      rcases hc with rfl | rfl | rfl | rfl | rfl | rfl <;> rfl)

/-- Helper: `tickGameOver` changes only the game-over flag. -/
theorem tickGameOver_level (G : Game) : (Game.tickGameOver G).level = G.level := by
  simp only [Game.tickGameOver]
  split <;> rfl

/-- Helper: the pre-level phases of `Game.update` never change `level`. -/
theorem preLevel_level (g : Game) (o : Oracle) : (Game.preLevel g o).level = g.level := by
  show (Game.tickGameOver _).level = g.level
  rw [tickGameOver_level]
  exact (tickSpawn_frame (Game.tickFlash g) o).2.2.2.1

/-- Helper: the boolean level-completion guard, spelled out. -/
theorem levelCompleteCond_iff (m : Game) :
    levelCompleteCond m = true ↔
      (m.enemy_missiles = [] ∧
        m.missiles_per_level ≤ m.missiles_spawned_this_level ∧
        m.cities.any (fun c => c.active) = true) := by
  simp [levelCompleteCond, List.isEmpty_iff, and_assoc]

/-- C3: in a PLAYING state the level counter increments this tick iff,
at the point of the check (after collisions and the game-over check),
there is no live enemy missile, the spawned-this-level count has reached
the quota, and some city is still active; and whenever it increments the
post-tick state still has no enemy missile and an active city.  In
particular a level never completes with a live Threat or with every
Target destroyed. -/
theorem claim_C3_level_complete_guard (g : Game) (o : Oracle) (hg : g.game_over = false) :
    (((Game.update g o).level = g.level + 1) ↔
      ((Game.preLevel g o).enemy_missiles = [] ∧
        (Game.preLevel g o).missiles_per_level ≤
          (Game.preLevel g o).missiles_spawned_this_level ∧
        (Game.preLevel g o).cities.any (fun c => c.active) = true)) ∧
    ((Game.update g o).level = g.level + 1 →
      (Game.update g o).enemy_missiles = [] ∧
      (Game.update g o).cities.any (fun c => c.active) = true) := by
  have hlv := preLevel_level g o
  have hupd : Game.update g o =
      if levelCompleteCond (Game.preLevel g o) then Game.levelUp (Game.preLevel g o) o
      else Game.preLevel g o := by
    simp [Game.update, hg]
  by_cases hc : levelCompleteCond (Game.preLevel g o) = true
  · obtain ⟨h1, h2, h3⟩ := (levelCompleteCond_iff _).mp hc
    have hone : Game.update g o = Game.levelUp (Game.preLevel g o) o := by
      rw [hupd, if_pos hc]
    constructor
    · refine iff_of_true ?_ ⟨h1, h2, h3⟩
      rw [hone, (levelUp_frame _ o).2.2.1, hlv]
    · intro _
      rw [hone]
      exact ⟨(levelUp_frame _ o).2.1.trans h1, ((levelUp_frame _ o).2.2.2).trans h3⟩
  · have hnone : Game.update g o = Game.preLevel g o := by
      rw [hupd, if_neg hc]
    have hneq : ¬((Game.update g o).level = g.level + 1) := by
      rw [hnone, hlv]
      omega
    constructor
    · exact iff_of_false hneq (fun hr => hc ((levelCompleteCond_iff _).mpr hr))
    · intro habs
      exact absurd habs hneq

theorem claim_C3_witness :
    Game.init.game_over = false ∧
    ((((Game.update Game.init oracleA).level = Game.init.level + 1) ↔
      ((Game.preLevel Game.init oracleA).enemy_missiles = [] ∧
        (Game.preLevel Game.init oracleA).missiles_per_level ≤
          (Game.preLevel Game.init oracleA).missiles_spawned_this_level ∧
        (Game.preLevel Game.init oracleA).cities.any (fun c => c.active) = true)) ∧
    ((Game.update Game.init oracleA).level = Game.init.level + 1 →
      (Game.update Game.init oracleA).enemy_missiles = [] ∧
      (Game.update Game.init oracleA).cities.any (fun c => c.active) = true)) :=
  ⟨rfl, claim_C3_level_complete_guard Game.init oracleA rfl⟩


/-- Helper: one step of a growing explosion. -/
theorem step_growing (e : Explosion) (hg : e.growing = true) :
    Explosion.step e =
      { e with
          radius := e.radius + EXPLOSION_GROWTH_RATE
          growing := if e.radius + EXPLOSION_GROWTH_RATE ≥ e.max_radius then false else true
          timer := e.timer - 1 } := by
  simp only [Explosion.step, hg]
  rfl

/-- Helper: one step of a frozen (non-growing) explosion. -/
theorem step_not_growing (e : Explosion) (hg : e.growing = false) :
    Explosion.step e = { e with timer := e.timer - 1 } := by
  simp only [Explosion.step, hg]
  simp [hg]

/-- Helper: closed form of the explosion state after `k` ticks:
radius `min (2k) 60`, growing exactly while `k < 30`, timer `45 - k`. -/
theorem stepIter_core (x y : ℝ) :
    ∀ k : ℕ,
      (Explosion.stepIter k (Explosion.init x y)).radius = min (2 * (k : ℝ)) 60 ∧
      (Explosion.stepIter k (Explosion.init x y)).growing = decide (k < 30) ∧
      (Explosion.stepIter k (Explosion.init x y)).max_radius = 60 ∧
      (Explosion.stepIter k (Explosion.init x y)).timer = 45 - (k : ℤ) := by
  intro k
  induction k with
  | zero =>
      refine ⟨?_, rfl, rfl, rfl⟩
      norm_num [Explosion.stepIter, Explosion.init]
  | succ k ih =>
      obtain ⟨hrad, hgrow, hmax, htim⟩ := ih
      set e := Explosion.stepIter k (Explosion.init x y) with he
      have hstep : Explosion.stepIter (k + 1) (Explosion.init x y) = Explosion.step e := rfl
      have hcast : ((k + 1 : ℕ) : ℝ) = (k : ℝ) + 1 := by push_cast; ring
      have hcastz : ((k + 1 : ℕ) : ℤ) = (k : ℤ) + 1 := by push_cast; ring
      rw [hstep]
      by_cases hk : k < 30
      · have hg : e.growing = true := by rw [hgrow]; simp [hk]
        have hk29 : (k : ℝ) ≤ 29 := by exact_mod_cast Nat.lt_succ_iff.mp hk
        have h2k : (2 * (k : ℝ)) ≤ 60 := by linarith
        have hradv : e.radius = 2 * (k : ℝ) := by rw [hrad]; exact min_eq_left h2k
        rw [step_growing e hg]
        refine ⟨?_, ?_, hmax, ?_⟩
        · show e.radius + EXPLOSION_GROWTH_RATE = min (2 * ((k + 1 : ℕ) : ℝ)) 60
          rw [hcast, hradv, EXPLOSION_GROWTH_RATE, min_eq_left (by linarith)]
          ring
        · show (if e.radius + EXPLOSION_GROWTH_RATE ≥ e.max_radius then false else true) =
            decide (k + 1 < 30)
          rw [hradv, hmax, EXPLOSION_GROWTH_RATE]
          by_cases hk2 : k + 1 < 30
          · have hk28 : (k : ℝ) ≤ 28 := by exact_mod_cast (by omega : k ≤ 28)
            rw [if_neg (by intro hcon; linarith)]
            simp [hk2]
          · have hk29e : k = 29 := by omega
            subst hk29e
            rw [if_pos (by norm_num)]
            simp
        · show e.timer - 1 = 45 - ((k + 1 : ℕ) : ℤ)
          rw [htim, hcastz]
          ring
      · have hg : e.growing = false := by rw [hgrow]; simp [hk]
        have hk30 : (30 : ℝ) ≤ (k : ℝ) := by exact_mod_cast not_lt.mp hk
        have h60 : (60 : ℝ) ≤ 2 * (k : ℝ) := by linarith
        rw [step_not_growing e hg]
        refine ⟨?_, ?_, hmax, ?_⟩
        · show e.radius = min (2 * ((k + 1 : ℕ) : ℝ)) 60
          rw [hrad, min_eq_right h60, hcast, min_eq_right (by linarith)]
        · show e.growing = decide (k + 1 < 30)
          have hk2 : ¬(k + 1 < 30) := by omega
          rw [hg]
          simp [hk2]
        · show e.timer - 1 = 45 - ((k + 1 : ℕ) : ℤ)
          rw [htim, hcastz]
          ring

/-- C7: blast lifecycle from creation.  After `k` ticks the radius is
`min (2k) 60` (so it never exceeds `EXPLOSION_MAX_RADIUS` and is
non-decreasing); each tick while `growing` adds exactly
`EXPLOSION_GROWTH_RATE`; once the radius has reached the maximum,
`growing` is false and the radius stays frozen; the lifetime timer
starts at 45 and drops by exactly 1 per tick, and the explosion loop of
`Game.update` removes the blast precisely when the timer has run out. -/
theorem claim_C7_blast_lifecycle (x y : ℝ) (k : ℕ) :
    (Explosion.stepIter k (Explosion.init x y)).radius = min (2 * (k : ℝ)) 60 ∧
    (Explosion.stepIter k (Explosion.init x y)).radius ≤ EXPLOSION_MAX_RADIUS ∧
    (Explosion.stepIter k (Explosion.init x y)).radius ≤
      (Explosion.stepIter (k + 1) (Explosion.init x y)).radius ∧
    ((Explosion.stepIter k (Explosion.init x y)).growing = true →
      (Explosion.stepIter (k + 1) (Explosion.init x y)).radius =
        (Explosion.stepIter k (Explosion.init x y)).radius + EXPLOSION_GROWTH_RATE) ∧
    ((Explosion.stepIter k (Explosion.init x y)).growing = false →
      (Explosion.stepIter (k + 1) (Explosion.init x y)).radius =
        (Explosion.stepIter k (Explosion.init x y)).radius ∧
      (Explosion.stepIter (k + 1) (Explosion.init x y)).growing = false) ∧
    ((Explosion.stepIter k (Explosion.init x y)).radius = EXPLOSION_MAX_RADIUS →
      (Explosion.stepIter k (Explosion.init x y)).growing = false) ∧
    (Explosion.stepIter k (Explosion.init x y)).timer = 45 - (k : ℤ) ∧
    (0 < (Explosion.stepIter k (Explosion.init x y)).timer ↔ k < 45) ∧
    stepExplosions [Explosion.stepIter k (Explosion.init x y)] =
      (if k + 1 < 45 then [Explosion.stepIter (k + 1) (Explosion.init x y)] else []) := by
  obtain ⟨hrad, hgrow, hmax, htim⟩ := stepIter_core x y k
  obtain ⟨hrad2, hgrow2, hmax2, htim2⟩ := stepIter_core x y (k + 1)
  have hcast : ((k + 1 : ℕ) : ℝ) = (k : ℝ) + 1 := by push_cast; ring
  refine ⟨hrad, ?_, ?_, ?_, ?_, ?_, htim, ?_, ?_⟩
  · rw [hrad, EXPLOSION_MAX_RADIUS]
    exact min_le_right _ _
  · rw [hrad, hrad2, hcast]
    exact min_le_min (by linarith) le_rfl
  · intro hg
    have hk : k < 30 := by
      by_contra hk
      rw [hgrow] at hg
      simp [hk] at hg
    have hk29 : (k : ℝ) ≤ 29 := by exact_mod_cast Nat.lt_succ_iff.mp hk
    rw [hrad, hrad2, hcast, min_eq_left (by linarith), min_eq_left (by linarith),
      EXPLOSION_GROWTH_RATE]
    ring
  · intro hg
    have hk : ¬(k < 30) := by
      intro hk
      rw [hgrow] at hg
      simp [hk] at hg
    have hk30 : (30 : ℝ) ≤ (k : ℝ) := by exact_mod_cast not_lt.mp hk
    constructor
    · rw [hrad, hrad2, hcast, min_eq_right (by linarith), min_eq_right (by linarith)]
    · rw [hgrow2]
      simp only [decide_eq_false_iff_not]
      omega
  · intro hr
    rw [hrad, EXPLOSION_MAX_RADIUS] at hr
    have h60 : (60 : ℝ) ≤ 2 * (k : ℝ) := min_eq_right_iff.mp hr
    have hk : ¬(k < 30) := by
      intro hk
      have : (k : ℝ) ≤ 29 := by exact_mod_cast Nat.lt_succ_iff.mp hk
      linarith
    rw [hgrow]
    simp [hk]
  · rw [htim]
    omega
  · have hstep : Explosion.step (Explosion.stepIter k (Explosion.init x y)) =
        Explosion.stepIter (k + 1) (Explosion.init x y) := rfl
    simp only [stepExplosions, List.map_cons, List.map_nil, hstep, List.filter_cons,
      List.filter_nil]
    by_cases h45 : k + 1 < 45
    · have hpos : (0 : ℤ) < (Explosion.stepIter (k + 1) (Explosion.init x y)).timer := by
        rw [htim2]
        omega
      simp [hpos, h45]
    · have hneg : ¬((0 : ℤ) < (Explosion.stepIter (k + 1) (Explosion.init x y)).timer) := by
        rw [htim2]
        omega
      simp [hneg, h45]

theorem claim_C7_witness :
    (Explosion.stepIter 0 (Explosion.init 0 0)).growing = true ∧
    (Explosion.stepIter 1 (Explosion.init 0 0)).radius =
      (Explosion.stepIter 0 (Explosion.init 0 0)).radius + EXPLOSION_GROWTH_RATE ∧
    (Explosion.stepIter 31 (Explosion.init 0 0)).radius =
      (Explosion.stepIter 30 (Explosion.init 0 0)).radius := by
  have hg0 : (Explosion.stepIter 0 (Explosion.init 0 0)).growing = true := rfl
  have hg30 : (Explosion.stepIter 30 (Explosion.init 0 0)).growing = false := by
    rw [(stepIter_core 0 0 30).2.1]
    simp
  exact ⟨hg0, (claim_C7_blast_lifecycle 0 0 0).2.2.2.1 hg0,
    ((claim_C7_blast_lifecycle 0 0 30).2.2.2.2.1 hg30).1⟩


/-- Helper: the Mathlib Euclidean distance on the plane, in coordinates. -/
theorem euclid_dist_two (a b u v : ℝ) :
    dist (vec2 a b) (vec2 u v) = Real.sqrt ((u - a) ^ 2 + (v - b) ^ 2) := by
  rw [EuclideanSpace.dist_eq, Fin.sum_univ_two]
  simp only [vec2, WithLp.equiv_symm_pi_apply, Matrix.cons_val_zero, Matrix.cons_val_one,
    Matrix.head_cons, Real.dist_eq, sq_abs]
  congr 1
  ring

/-- Helper: the Mathlib Euclidean norm on the plane, in coordinates. -/
theorem euclid_norm_two (a b : ℝ) :
    ‖vec2 a b‖ = Real.sqrt (a ^ 2 + b ^ 2) := by
  rw [EuclideanSpace.norm_eq, Fin.sum_univ_two]
  simp only [vec2, WithLp.equiv_symm_pi_apply, Matrix.cons_val_zero, Matrix.cons_val_one,
    Matrix.head_cons, Real.norm_eq_abs, sq_abs]

/-- C9: the velocity computed by `Missile.__init__` is the zero vector
when start and target coincide, and otherwise the unit direction from
start to target scaled by `speed` (stated via the Euclidean distance:
`D · v = (target - start) · speed` with `D > 0`, and the Euclidean norm
of the velocity equals the speed when it is nonnegative); and
`has_reached_target` holds exactly when the Euclidean distance from the
current position to the target is strictly less than `speed`. -/
theorem claim_C9_kinematics (sx sy tx ty s : ℝ) (c : Color) :
    ((sx, sy) = ((tx, ty) : ℝ × ℝ) →
      (mkMissile sx sy tx ty s c).velocity_x = 0 ∧
      (mkMissile sx sy tx ty s c).velocity_y = 0) ∧
    ((sx, sy) ≠ ((tx, ty) : ℝ × ℝ) →
      dist (vec2 sx sy) (vec2 tx ty) * (mkMissile sx sy tx ty s c).velocity_x =
        (tx - sx) * s ∧
      dist (vec2 sx sy) (vec2 tx ty) * (mkMissile sx sy tx ty s c).velocity_y =
        (ty - sy) * s ∧
      (0 ≤ s →
        ‖vec2 (mkMissile sx sy tx ty s c).velocity_x
            (mkMissile sx sy tx ty s c).velocity_y‖ = s)) ∧
    (∀ m : Missile,
      m.has_reached_target ↔
        dist (vec2 m.x m.y) (vec2 m.target_x m.target_y) < m.speed) := by
  refine ⟨?_, ?_, ?_⟩
  · intro h
    simp only [Prod.mk.injEq] at h
    obtain ⟨h1, h2⟩ := h
    subst h1
    subst h2
    constructor <;> norm_num [mkMissile]
  · intro h
    have hne : ¬(tx - sx = 0 ∧ ty - sy = 0) := by
      rintro ⟨hx0, hy0⟩
      exact h (by simp only [Prod.mk.injEq]; constructor <;> linarith)
    have hpos : 0 < (tx - sx) ^ 2 + (ty - sy) ^ 2 := by
      rcases not_and_or.mp hne with hx | hy
      · have h1 : 0 < (tx - sx) ^ 2 := pow_two_pos_of_ne_zero hx
        nlinarith [sq_nonneg (ty - sy)]
      · have h1 : 0 < (ty - sy) ^ 2 := pow_two_pos_of_ne_zero hy
        nlinarith [sq_nonneg (tx - sx)]
    have hD : Real.sqrt ((tx - sx) ^ 2 + (ty - sy) ^ 2) > 0 := Real.sqrt_pos.mpr hpos
    have hD2 : Real.sqrt ((tx - sx) ^ 2 + (ty - sy) ^ 2) ^ 2 =
        (tx - sx) ^ 2 + (ty - sy) ^ 2 := Real.sq_sqrt (le_of_lt hpos)
    have hvx : (mkMissile sx sy tx ty s c).velocity_x =
        (tx - sx) / Real.sqrt ((tx - sx) ^ 2 + (ty - sy) ^ 2) * s := by
      simp only [mkMissile]
      rw [if_pos hD]
    have hvy : (mkMissile sx sy tx ty s c).velocity_y =
        (ty - sy) / Real.sqrt ((tx - sx) ^ 2 + (ty - sy) ^ 2) * s := by
      simp only [mkMissile]
      rw [if_pos hD]
    have hdist : dist (vec2 sx sy) (vec2 tx ty) =
        Real.sqrt ((tx - sx) ^ 2 + (ty - sy) ^ 2) := euclid_dist_two sx sy tx ty
    refine ⟨?_, ?_, ?_⟩
    · rw [hdist, hvx]
      field_simp
    · rw [hdist, hvy]
      field_simp
    · intro hs
      rw [hvx, hvy, euclid_norm_two]
      have hexp : ((tx - sx) / Real.sqrt ((tx - sx) ^ 2 + (ty - sy) ^ 2) * s) ^ 2 +
          ((ty - sy) / Real.sqrt ((tx - sx) ^ 2 + (ty - sy) ^ 2) * s) ^ 2 =
          ((tx - sx) ^ 2 + (ty - sy) ^ 2) /
            Real.sqrt ((tx - sx) ^ 2 + (ty - sy) ^ 2) ^ 2 * s ^ 2 := by
        ring
      rw [hexp, hD2, div_self (ne_of_gt hpos), one_mul, Real.sqrt_sq hs]
  · intro m
    have hunf : m.has_reached_target =
        (Real.sqrt ((m.x - m.target_x) ^ 2 + (m.y - m.target_y) ^ 2) < m.speed) := rfl
    rw [hunf, euclid_dist_two]
    have hsym : (m.target_x - m.x) ^ 2 + (m.target_y - m.y) ^ 2 =
        (m.x - m.target_x) ^ 2 + (m.y - m.target_y) ^ 2 := by ring
    rw [hsym]

theorem claim_C9_witness :
    ((3 : ℝ), (4 : ℝ)) ≠ ((3 : ℝ), (3 : ℝ)) ∧ (0 : ℝ) ≤ 5 ∧
    (mkMissile 0 0 0 0 5 CYAN).velocity_x = 0 ∧
    dist (vec2 3 4) (vec2 3 3) * (mkMissile 3 4 3 3 5 CYAN).velocity_y =
      ((3 : ℝ) - 4) * 5 ∧
    ‖vec2 (mkMissile 3 4 3 3 5 CYAN).velocity_x (mkMissile 3 4 3 3 5 CYAN).velocity_y‖ = 5 := by
  have hne : ((3 : ℝ), (4 : ℝ)) ≠ ((3 : ℝ), (3 : ℝ)) := by
    intro hcon
    have h2 := congrArg Prod.snd hcon
    norm_num at h2
  refine ⟨hne, by norm_num, ?_, ?_, ?_⟩
  · exact ((claim_C9_kinematics 0 0 0 0 5 CYAN).1 rfl).1
  · exact ((claim_C9_kinematics 3 4 3 3 5 CYAN).2.1 hne).2.1
  · exact ((claim_C9_kinematics 3 4 3 3 5 CYAN).2.1 hne).2.2 (by norm_num)

/-- Helper: the city loop never changes the cities' x-coordinates. -/
theorem hitCity_map_x (cs : List City) (mx : ℝ) :
    ((hitCity cs mx).1).map City.x = cs.map City.x := by
  induction cs with
  | nil => rfl
  | cons c cs ih =>
      simp only [hitCity]
      split
      · simp
      · simp only [List.map_cons, ih]

/-- Helper: the base loop never changes the bases' x-coordinates. -/
theorem hitBase_map_x (bs : List MissileBase) (mx : ℝ) :
    ((hitBase bs mx).1).map MissileBase.x = bs.map MissileBase.x := by
  induction bs with
  | nil => rfl
  | cons b bs ih =>
      simp only [hitBase]
      split
      · simp
      · simp only [List.map_cons, ih]

/-- Helper: a city loop that hit nothing left the list unchanged. -/
theorem hitCity_fst_of_none (cs : List City) (mx : ℝ) (h : (hitCity cs mx).2 = none) :
    (hitCity cs mx).1 = cs := by
  induction cs with
  | nil => rfl
  | cons c cs ih =>
      by_cases hc : (c.active = true ∧ |c.x - mx| < 20)
      · simp only [hitCity] at h
        rw [if_pos hc] at h
        simp at h
      · simp only [hitCity] at h ⊢
        rw [if_neg hc] at h ⊢
        simp only at h ⊢
        rw [ih h]

/-- Helper: a base loop that hit nothing left the list unchanged. -/
theorem hitBase_fst_of_none (bs : List MissileBase) (mx : ℝ) (h : (hitBase bs mx).2 = none) :
    (hitBase bs mx).1 = bs := by
  induction bs with
  | nil => rfl
  | cons b bs ih =>
      by_cases hb : (b.active = true ∧ |b.x - mx| < 20)
      · simp only [hitBase] at h
        rw [if_pos hb] at h
        simp at h
      · simp only [hitBase] at h ⊢
        rw [if_neg hb] at h ⊢
        simp only at h ⊢
        rw [ih h]

/-- Helper: a city hit exhibits an active city within the hit radius. -/
theorem hitCity_isSome_exists (cs : List City) (mx : ℝ)
    (h : (hitCity cs mx).2.isSome = true) :
    ∃ c ∈ cs, c.active = true ∧ |c.x - mx| < 20 := by
  induction cs with
  | nil => simp [hitCity] at h
  | cons c cs ih =>
      by_cases hc : (c.active = true ∧ |c.x - mx| < 20)
      · exact ⟨c, by simp, hc⟩
      · simp only [hitCity] at h
        rw [if_neg hc] at h
        simp only at h
        obtain ⟨c2, hm, hp⟩ := ih h
        exact ⟨c2, by simp [hm], hp⟩

/-- Helper: a base hit exhibits an active base within the hit radius. -/
theorem hitBase_isSome_exists (bs : List MissileBase) (mx : ℝ)
    (h : (hitBase bs mx).2.isSome = true) :
    ∃ b ∈ bs, b.active = true ∧ |b.x - mx| < 20 := by
  induction bs with
  | nil => simp [hitBase] at h
  | cons b bs ih =>
      by_cases hb : (b.active = true ∧ |b.x - mx| < 20)
      · exact ⟨b, by simp, hb⟩
      · simp only [hitBase] at h
        rw [if_neg hb] at h
        simp only at h
        obtain ⟨b2, hm, hp⟩ := ih h
        exact ⟨b2, by simp [hm], hp⟩

/-- Helper: the city loop deactivates at most one city. -/
theorem hitCity_count (cs : List City) (mx : ℝ) :
    (cs.filter (fun c => c.active)).length ≤
      (((hitCity cs mx).1).filter (fun c => c.active)).length + 1 := by
  induction cs with
  | nil => simp [hitCity]
  | cons c cs ih =>
      by_cases hc : (c.active = true ∧ |c.x - mx| < 20)
      · simp only [hitCity]
        rw [if_pos hc]
        simp [List.filter_cons, hc.1]
      · simp only [hitCity]
        rw [if_neg hc]
        simp only [List.filter_cons]
        by_cases hca : c.active = true
        · simp only [hca, if_true, List.length_cons]
          simp only at ih ⊢
          omega
        · simp only [hca]
          simpa using ih

/-- Helper: the base loop deactivates at most one base. -/
theorem hitBase_count (bs : List MissileBase) (mx : ℝ) :
    (bs.filter (fun b => b.active)).length ≤
      (((hitBase bs mx).1).filter (fun b => b.active)).length + 1 := by
  induction bs with
  | nil => simp [hitBase]
  | cons b bs ih =>
      by_cases hb : (b.active = true ∧ |b.x - mx| < 20)
      · simp only [hitBase]
        rw [if_pos hb]
        simp [List.filter_cons, hb.1]
      · simp only [hitBase]
        rw [if_neg hb]
        simp only [List.filter_cons]
        by_cases hba : b.active = true
        · simp only [hba, if_true, List.length_cons]
          simp only at ih ⊢
          omega
        · simp only [hba]
          simpa using ih

/-- Helper: every city x and every base x of the fixed layout are at
least 40 apart, so no ground impact can be within 20 of both. -/
theorem cityBase_sep : ∀ a ∈ stdCityXs, ∀ b ∈ stdBaseXs, (40 : ℝ) ≤ |a - b| := by
  intro a ha b hb
  simp only [stdCityXs, List.mem_cons, List.not_mem_nil, or_false] at ha
  simp only [stdBaseXs, List.mem_cons, List.not_mem_nil, or_false] at hb
  rcases ha with rfl | rfl | rfl | rfl | rfl | rfl <;>
    rcases hb with rfl | rfl | rfl <;>
      (rw [le_abs]; norm_num)

/-- C1: for a ground impact at x-coordinate `mx` against any city and
base lists carrying the game's fixed layout (which every reachable
state does — see `reachable_positions`), the city pass and the base
pass can never both hit, and in total at most one ground entity is
deactivated; in particular a Launcher can fall only when no Target
matched. -/
theorem claim_C1_ground_impact (cs : List City) (bs : List MissileBase) (mx : ℝ)
    (hcs : cs.map City.x = stdCityXs) (hbs : bs.map MissileBase.x = stdBaseXs) :
    ¬((hitCity cs mx).2.isSome = true ∧ (hitBase bs mx).2.isSome = true) ∧
    (cs.filter (fun c => c.active)).length + (bs.filter (fun b => b.active)).length ≤
      (((hitCity cs mx).1).filter (fun c => c.active)).length +
        (((hitBase bs mx).1).filter (fun b => b.active)).length + 1 := by
  have hboth : ¬((hitCity cs mx).2.isSome = true ∧ (hitBase bs mx).2.isSome = true) := by
    rintro ⟨hc2, hb2⟩
    obtain ⟨c, hcmem, hcact, hcx⟩ := hitCity_isSome_exists cs mx hc2
    obtain ⟨b, hbmem, hbact, hbx⟩ := hitBase_isSome_exists bs mx hb2
    have hcmx : c.x ∈ stdCityXs := hcs ▸ List.mem_map_of_mem City.x hcmem
    have hbmx : b.x ∈ stdBaseXs := hbs ▸ List.mem_map_of_mem MissileBase.x hbmem
    have hsep := cityBase_sep c.x hcmx b.x hbmx
    have htri : |c.x - b.x| ≤ |c.x - mx| + |mx - b.x| := abs_sub_le c.x mx b.x
    have hcomm : |mx - b.x| = |b.x - mx| := abs_sub_comm mx b.x
    linarith
  refine ⟨hboth, ?_⟩
  by_cases hs : (hitCity cs mx).2.isSome = true
  · have hbn : (hitBase bs mx).2 = none :=
      Option.not_isSome_iff_eq_none.mp (fun hb2 => hboth ⟨hs, hb2⟩)
    rw [hitBase_fst_of_none bs mx hbn]
    have := hitCity_count cs mx
    omega
  · have hcn : (hitCity cs mx).2 = none := Option.not_isSome_iff_eq_none.mp hs
    rw [hitCity_fst_of_none cs mx hcn]
    have := hitBase_count bs mx
    omega

theorem claim_C1_witness :
    initCities.map City.x = stdCityXs ∧
    (initBases 10).map MissileBase.x = stdBaseXs ∧
    (¬((hitCity initCities 210).2.isSome = true ∧
        (hitBase (initBases 10) 210).2.isSome = true) ∧
      (initCities.filter (fun c => c.active)).length +
          ((initBases 10).filter (fun b => b.active)).length ≤
        (((hitCity initCities 210).1).filter (fun c => c.active)).length +
          (((hitBase (initBases 10) 210).1).filter (fun b => b.active)).length + 1) := by
  have h1 : initCities.map City.x = stdCityXs := by
    norm_num [initCities, stdCityXs, SCREEN_WIDTH, SCREEN_HEIGHT]
  have h2 : (initBases 10).map MissileBase.x = stdBaseXs := by
    norm_num [initBases, stdBaseXs, SCREEN_WIDTH, SCREEN_HEIGHT]
  exact ⟨h1, h2, claim_C1_ground_impact initCities (initBases 10) 210 h1 h2⟩

/-- Helper: the x-coordinates of the freshly built cities. -/
theorem initCities_map_x : initCities.map City.x = stdCityXs := by
  norm_num [initCities, stdCityXs, SCREEN_WIDTH, SCREEN_HEIGHT]

/-- Helper: the x-coordinates of the freshly built bases. -/
theorem initBases_map_x (a : ℤ) : (initBases a).map MissileBase.x = stdBaseXs := by
  norm_num [initBases, stdBaseXs, SCREEN_WIDTH, SCREEN_HEIGHT]

/-- Helper: one enemy-missile step never moves a city or base. -/
theorem stepEnemyOne_maps (st : MidState) (m : Missile) :
    (stepEnemyOne st m).cities.map City.x = st.cities.map City.x ∧
    (stepEnemyOne st m).bases.map MissileBase.x = st.bases.map MissileBase.x := by
  simp only [stepEnemyOne]
  split
  · exact ⟨rfl, rfl⟩
  · split
    · exact ⟨hitCity_map_x _ _, hitBase_map_x _ _⟩
    · exact ⟨rfl, rfl⟩

/-- Helper: the enemy-missile loop never moves a city or base. -/
theorem processEnemy_maps (ms : List Missile) :
    ∀ st : MidState,
      (processEnemy st ms).cities.map City.x = st.cities.map City.x ∧
      (processEnemy st ms).bases.map MissileBase.x = st.bases.map MissileBase.x := by
  induction ms with
  | nil => intro st; exact ⟨rfl, rfl⟩
  | cons m ms ih =>
      intro st
      have h1 := stepEnemyOne_maps st m
      have h2 := ih (stepEnemyOne st m)
      simp only [processEnemy, List.foldl_cons] at h2 ⊢
      exact ⟨h2.1.trans h1.1, h2.2.trans h1.2⟩

/-- Helper: recoloring never moves a city. -/
theorem recolorCities_map_x (f : ℕ → Color) (cs : List City) :
    ∀ k, (recolorCities f k cs).map City.x = cs.map City.x := by
  induction cs with
  | nil => intro _; rfl
  | cons c cs ih =>
      intro k
      have hx : ((if c.active then { c with color := f k } else c)).x = c.x := by
        split <;> rfl
      simp only [recolorCities, List.map_cons, ih, hx]

/-- Helper: the level-up block never moves a city or base. -/
theorem levelUp_maps (g : Game) (o : Oracle) :
    (Game.levelUp g o).cities.map City.x = g.cities.map City.x ∧
    (Game.levelUp g o).bases.map MissileBase.x = g.bases.map MissileBase.x := by
  constructor
  · exact recolorCities_map_x o.cityColor g.cities 0
  · show ((g.bases.map
        (fun b => { b with active := true, ammo := g.starting_ammo })).map MissileBase.x) =
      g.bases.map MissileBase.x
    rw [List.map_map]
    rfl

/-- Helper: `tickGameOver` changes neither the cities nor the bases. -/
theorem tickGameOver_lists (G : Game) :
    (Game.tickGameOver G).cities = G.cities ∧ (Game.tickGameOver G).bases = G.bases := by
  simp only [Game.tickGameOver]
  split <;> exact ⟨rfl, rfl⟩

/-- Helper: the pre-level phases never move a city or base. -/
theorem preLevel_maps (g : Game) (o : Oracle) :
    (Game.preLevel g o).cities.map City.x = g.cities.map City.x ∧
    (Game.preLevel g o).bases.map MissileBase.x = g.bases.map MissileBase.x := by
  set G3 := Game.tickPlayer (Game.tickSpawn (Game.tickFlash g) o) with hG3
  have hc3 : G3.cities = g.cities := (tickSpawn_frame (Game.tickFlash g) o).1
  have hb3 : G3.bases = g.bases := (tickSpawn_frame (Game.tickFlash g) o).2.1
  have hfold := processEnemy_maps G3.enemy_missiles
    { enemy_missiles := [], cities := G3.cities, bases := G3.bases,
      explosions := G3.explosions, score := G3.score }
  have h4c : (Game.tickEnemy G3).cities.map City.x = g.cities.map City.x := by
    show (processEnemy
      { enemy_missiles := [], cities := G3.cities, bases := G3.bases,
        explosions := G3.explosions, score := G3.score } G3.enemy_missiles).cities.map City.x =
      g.cities.map City.x
    rw [hfold.1]
    rw [hc3]
  have h4b : (Game.tickEnemy G3).bases.map MissileBase.x = g.bases.map MissileBase.x := by
    show (processEnemy
      { enemy_missiles := [], cities := G3.cities, bases := G3.bases,
        explosions := G3.explosions, score := G3.score } G3.enemy_missiles).bases.map
          MissileBase.x = g.bases.map MissileBase.x
    rw [hfold.2]
    rw [hb3]
  have hgo := tickGameOver_lists (Game.tickExplosions (Game.tickEnemy G3))
  constructor
  · show (Game.tickGameOver (Game.tickExplosions (Game.tickEnemy G3))).cities.map City.x = _
    rw [hgo.1]
    exact h4c
  · show (Game.tickGameOver (Game.tickExplosions (Game.tickEnemy G3))).bases.map MissileBase.x = _
    rw [hgo.2]
    exact h4b

/-- Helper: setting one list slot to a base at the same position keeps
the x-coordinates. -/
theorem map_x_set :
    ∀ (l : List MissileBase) (i : ℕ) (b b' : MissileBase),
      l.get? i = some b → b'.x = b.x →
      (l.set i b').map MissileBase.x = l.map MissileBase.x := by
  intro l
  induction l with
  | nil =>
      intro i b b' h _
      simp at h
  | cons a l ih =>
      intro i b b' h hx
      cases i with
      | zero =>
          simp only [List.get?_cons_zero, Option.some.injEq] at h
          subst h
          simp only [List.set_cons_zero, List.map_cons]
          rw [hx]
      | succ i =>
          simp only [List.get?_cons_succ] at h
          simp only [List.set_cons_succ, List.map_cons, ih i b b' h hx]

/-- Helper: a fire click never moves a city. -/
theorem fireEvent_cities (g : Game) (i : ℕ) (mx my : ℝ) :
    (fireEvent g i mx my).cities = g.cities := by
  simp only [fireEvent]
  split
  · rfl
  · split
    · rfl
    · split <;> rfl

/-- Helper: a fire click never moves a base. -/
theorem fireEvent_bases_map_x (g : Game) (i : ℕ) (mx my : ℝ) :
    (fireEvent g i mx my).bases.map MissileBase.x = g.bases.map MissileBase.x := by
  simp only [fireEvent]
  split
  · rfl
  · split
    · rfl
    · rename_i b hb
      have hx : ((MissileBase.fire b mx my).2).x = b.x := (fire_snd_frame b mx my).2.1
      split
      · exact map_x_set g.bases i b _ hb hx
      · exact map_x_set g.bases i b _ hb hx

/-- Supporting invariant for C1: every reachable game state carries the
fixed ground layout — cities at x = 200, 250, 300, 500, 550, 600 and
bases at x = 100, 400, 700 — so the hypotheses of
`claim_C1_ground_impact` hold whenever a Threat strikes the ground. -/
theorem reachable_positions (g : Game) (h : Reachable g) :
    g.cities.map City.x = stdCityXs ∧ g.bases.map MissileBase.x = stdBaseXs := by
  induction h with
  | refl => exact ⟨initCities_map_x, initBases_map_x 10⟩
  | tail hsteps hstep ih =>
      rename_i b c
      cases hstep with
      | update o =>
          by_cases hgo : b.game_over = true
          · have hid : Game.update b o = b := by simp [Game.update, hgo]
            rw [hid]
            exact ih
          · have hupd : Game.update b o =
                if levelCompleteCond (Game.preLevel b o) then
                  Game.levelUp (Game.preLevel b o) o
                else Game.preLevel b o := by
              simp [Game.update, hgo]
            have hpre := preLevel_maps b o
            by_cases hc : levelCompleteCond (Game.preLevel b o) = true
            · have hl := levelUp_maps (Game.preLevel b o) o
              rw [hupd, if_pos hc]
              exact ⟨hl.1.trans (hpre.1.trans ih.1), hl.2.trans (hpre.2.trans ih.2)⟩
            · rw [hupd, if_neg hc]
              exact ⟨hpre.1.trans ih.1, hpre.2.trans ih.2⟩
      | fire i mx my =>
          refine ⟨?_, ?_⟩
          · rw [fireEvent_cities]
            exact ih.1
          · rw [fireEvent_bases_map_x]
            exact ih.2
      | restart =>
          by_cases hgo : b.game_over = true
          · have hre : restartEvent b =
                Game.setup_game { b with game_over := false, score := 0, level := 1 } := by
              simp [restartEvent, hgo]
            rw [hre]
            exact ⟨initCities_map_x, initBases_map_x _⟩
          · have hid : restartEvent b = b := by simp [restartEvent, hgo]
            rw [hid]
            exact ih
